import Mathlib

/-!
Shallow embedding of the pratyayprofile_backend repository
(FastAPI CRUD surface over MongoDB, files src/main.py, src/mongodb_conn.py,
src/pratyayprofile_backend/mongodb.py, src/pratyayprofile_backend/mongodb_conn.py)
and proofs about the claims of its specification.

The embedding mirrors the Python source.  External collaborators
(the bson ObjectId type, the Python json module, the pymongo/motor store
driver) are modelled from their documented contracts on the fragment the
application exercises; every such model is marked in its doc comment.
-/

/-- JSON-compatible values exchanged by the API, extended with the
MongoDB ObjectId (an uninterpreted 12-byte value, carried as a list of bytes).
This is the type of document field values, query values and HTTP bodies. -/
inductive Value where
  | null : Value
  | bool : Bool → Value
  | num : Int → Value
  | str : String → Value
  | oid : List Nat → Value
  | arr : List Value → Value
  | obj : List (String × Value) → Value

/-- A document / Python dict: ordered association list of string keys.
Python dicts hold each key at most once; handlers only build such lists. -/
abbrev Doc := List (String × Value)

/-- A MongoDB filter document (the handlers only ever build equality
filters such as a single `_id` binding). -/
abbrev QueryFilter := List (String × Value)

mutual

/-- Structural equality of values (models Python `==` on the JSON fragment). -/
def valueEq : Value → Value → Bool
  | Value.null, Value.null => true
  | Value.bool a, Value.bool b => a == b
  | Value.num a, Value.num b => a == b
  | Value.str a, Value.str b => a == b
  | Value.oid a, Value.oid b => a == b
  | Value.arr a, Value.arr b => valueListEq a b
  | Value.obj a, Value.obj b => fieldListEq a b
  | _, _ => false

/-- Pointwise equality of value lists. -/
def valueListEq : List Value → List Value → Bool
  | [], [] => true
  | a :: as, b :: bs => valueEq a b && valueListEq as bs
  | _, _ => false

/-- Pointwise equality of key/value field lists. -/
def fieldListEq : List (String × Value) → List (String × Value) → Bool
  | [], [] => true
  | (k, a) :: as, (l, b) :: bs => k == l && valueEq a b && fieldListEq as bs
  | _, _ => false

end

/-- Python `dict.get`: the value bound to `k`, if any (first binding). -/
def dictGet (d : Doc) (k : String) : Option Value :=
  (d.find? (fun kv => kv.1 == k)).map (fun kv => kv.2)

/-- Python `d[k] = v`: replace the binding of an existing key in place,
or append a fresh binding at the end (insertion-order semantics of dict). -/
def dictSet (d : Doc) (k : String) (v : Value) : Doc :=
  if (d.find? (fun kv => kv.1 == k)).isSome then
    d.map (fun kv => if kv.1 == k then (k, v) else kv)
  else
    d ++ [(k, v)]

/-- Hexadecimal digit value of a character code (0-9, a-f, A-F), as used by
Python `bytes.fromhex` inside the bson ObjectId constructor. -/
def hexDigitVal (n : Nat) : Option Nat :=
  if 48 ≤ n ∧ n ≤ 57 then some (n - 48)
  else if 97 ≤ n ∧ n ≤ 102 then some (n - 87)
  else if 65 ≤ n ∧ n ≤ 70 then some (n - 55)
  else none

/-- Is the character a hexadecimal digit (either case)? -/
def isHexChar (c : Char) : Bool :=
  (hexDigitVal c.toNat).isSome

/-- Is the character a hexadecimal digit that is not an uppercase letter? -/
def isLowerHexChar (c : Char) : Bool :=
  (48 ≤ c.toNat && c.toNat ≤ 57) || (97 ≤ c.toNat && c.toNat ≤ 102)

/-- Decode consecutive pairs of hex digits into bytes (`bytes.fromhex` on an
even-length all-hex string). -/
def hexPairsToBytes : List Char → List Nat
  | c1 :: c2 :: rest =>
      ((hexDigitVal c1.toNat).getD 0 * 16 + (hexDigitVal c2.toNat).getD 0)
        :: hexPairsToBytes rest
  | _ => []

/-- Model of the bson `ObjectId(str)` constructor: a 24-character string of
hex digits is decoded to its 12 bytes; anything else raises `InvalidId`
(modelled as `none`).  This is the documented contract of ObjectId on
strings: exactly 24 hexadecimal characters. -/
def objectIdParse (s : String) : Option (List Nat) :=
  if s.length = 24 ∧ s.data.all isHexChar then some (hexPairsToBytes s.data)
  else none

/-- Lower-case hex character of a digit value below 16 (as produced by
`binascii.hexlify`, which `str(ObjectId)` uses: always lower case). -/
def hexChar (n : Nat) : Char :=
  if n < 10 then Char.ofNat (48 + n) else Char.ofNat (87 + n)

/-- Two lower-case hex characters of one byte. -/
def byteToHexChars (b : Nat) : List Char :=
  [hexChar (b / 16), hexChar (b % 16)]

/-- Lower-case hex rendering of a byte list. -/
def bytesToHexChars : List Nat → List Char
  | [] => []
  | b :: rest => byteToHexChars b ++ bytesToHexChars rest

/-- Model of `str(ObjectId)`: the 24-character lower-case hex rendering. -/
def oidString (bytes : List Nat) : String :=
  String.mk (bytesToHexChars bytes)

/-- Lower-case normalization of a single hex character: an uppercase hex
letter is shifted to its lower-case form, everything else is unchanged. -/
def hexLowerChar (c : Char) : Char :=
  if 65 ≤ c.toNat ∧ c.toNat ≤ 70 then Char.ofNat (c.toNat + 32) else c

/-- Lower-case normalization of a hex string: what `str(ObjectId(s))`
produces for a valid 24-hex input `s` of any letter case. -/
def hexStringToLower (s : String) : String :=
  String.mk (s.data.map hexLowerChar)

/-- Model of Python `str()` on the values the application renders.
ObjectIds render as lower-case hex; scalars as their Python forms.  The
recursive repr of containers is not exercised by any handler or claim and
is modelled by a fixed token. -/
def valueStr : Value → String
  | Value.null => "None"
  | Value.bool true => "True"
  | Value.bool false => "False"
  | Value.num n => toString n
  | Value.str s => s
  | Value.oid bs => oidString bs
  | Value.arr _ => "[...]"
  | Value.obj _ => "<dict>"

/-- Is the value the JSON/Python null? -/
def valueIsNull : Value → Bool
  | Value.null => true
  | _ => false

/-- Core of `serialize_doc` (src/main.py lines 38-53) on a present dict:
`out = dict(doc)` (a copy — the input dict is never mutated), then if
`out.get("_id")` is not None, `out["_id"] = str(_id)`.  The `try` around
the conversion cannot fail in this model (`str` is total). -/
def serializeDocSome (doc : Doc) : Doc :=
  match dictGet doc ("_id") with
  | some v => if valueIsNull v then doc else dictSet doc ("_id") (Value.str (valueStr v))
  | none => doc

/-- `serialize_doc` (src/main.py lines 38-53): `None` maps to `None`,
otherwise the copy with the `_id` field rendered through `str`. -/
def serializeDoc : Option Doc → Option Doc
  | none => none
  | some d => some (serializeDocSome d)

/-! ### Model of the Python `json` module (`json.loads`)

Used by the list endpoints to parse free-form query strings.  The model
covers the JSON grammar on the fragment the application exercises
(objects, arrays, strings with simple escapes, integers — a fraction or
exponent part is consumed and validated but the numeric value keeps the
integer part, which no claim observes — plus the three literals).
Malformed input produces an error message, modelling `json.JSONDecodeError`
(messages are abbreviated: parse positions are not tracked). -/

/-- Skip JSON whitespace. -/
def skipWs : List Char → List Char
  | [] => []
  | c :: rest =>
      if c = ' ' || c = Char.ofNat 9 || c = Char.ofNat 10 || c = Char.ofNat 13 then
        skipWs rest
      else c :: rest

/-- Translate a character after a backslash escape. -/
def unescapeChar (e : Char) : Char :=
  if e = 'n' then Char.ofNat 10
  else if e = 't' then Char.ofNat 9
  else if e = 'r' then Char.ofNat 13
  else if e = 'b' then Char.ofNat 8
  else if e = 'f' then Char.ofNat 12
  else e

/-- Parse the body of a JSON string after the opening quote; returns the
content and the remaining input after the closing quote. -/
def parseStringChars : List Char → Except String (List Char × List Char)
  | [] => Except.error ("Unterminated string")
  | c :: rest =>
      if c = Char.ofNat 34 then Except.ok ([], rest)
      else if c = Char.ofNat 92 then
        match rest with
        | [] => Except.error ("Unterminated string")
        | e :: rest2 =>
            match parseStringChars rest2 with
            | Except.error m => Except.error m
            | Except.ok (cs, r) => Except.ok (unescapeChar e :: cs, r)
      else
        match parseStringChars rest with
        | Except.error m => Except.error m
        | Except.ok (cs, r) => Except.ok (c :: cs, r)

/-- Take a maximal run of decimal digits. -/
def takeDigits : List Char → (List Char × List Char)
  | [] => ([], [])
  | c :: rest =>
      if c.isDigit then
        let p := takeDigits rest
        (c :: p.1, p.2)
      else ([], c :: rest)

/-- Decimal value of a digit run. -/
def digitsToNat (ds : List Char) : Nat :=
  ds.foldl (fun acc c => 10 * acc + (c.toNat - 48)) 0

/-- Consume an optional exponent part after a number. -/
def consumeExponent (n : Int) (cs : List Char) : Except String (Value × List Char) :=
  match cs with
  | [] => Except.ok (Value.num n, [])
  | c :: rest =>
      if c = 'e' || c = 'E' then
        match rest with
        | [] => Except.error ("Expecting digits in exponent")
        | d :: rest2 =>
            let cs2 := if d = '+' || d = '-' then rest2 else d :: rest2
            let q := takeDigits cs2
            if q.1.isEmpty then Except.error ("Expecting digits in exponent")
            else Except.ok (Value.num n, q.2)
      else Except.ok (Value.num n, c :: rest)

/-- Parse the digits of a JSON number (sign already consumed). -/
def parseNumberAux (neg : Bool) (cs : List Char) : Except String (Value × List Char) :=
  let p := takeDigits cs
  if p.1.isEmpty then Except.error ("Expecting value")
  else
    let n : Int := Int.ofNat (digitsToNat p.1)
    let n := if neg then -n else n
    match p.2 with
    | [] => Except.ok (Value.num n, [])
    | c :: rest =>
        if c = '.' then
          let q := takeDigits rest
          if q.1.isEmpty then Except.error ("Expecting digit after decimal point")
          else consumeExponent n q.2
        else consumeExponent n (c :: rest)

/-- Drop an expected literal character sequence. -/
def dropLit : List Char → List Char → Option (List Char)
  | [], cs => some cs
  | _ :: _, [] => none
  | l :: ls, c :: cs => if c = l then dropLit ls cs else none

mutual

/-- Fuel-indexed JSON value parse; the fuel bounds nesting depth and is
always sufficient for the initial `input.length + 1`. -/
def parseValueFuel : Nat → List Char → Except String (Value × List Char)
  | 0, _ => Except.error ("Expecting value")
  | _ + 1, [] => Except.error ("Expecting value")
  | fuel + 1, c :: rest =>
      if c = Char.ofNat 34 then
        match parseStringChars rest with
        | Except.error m => Except.error m
        | Except.ok (cs, r) => Except.ok (Value.str (String.mk cs), r)
      else if c = Char.ofNat 123 then
        match skipWs rest with
        | [] => Except.error ("Expecting property name enclosed in double quotes")
        | d :: r2 =>
            if d = Char.ofNat 125 then Except.ok (Value.obj [], r2)
            else
              match parseObjItems fuel (d :: r2) with
              | Except.error m => Except.error m
              | Except.ok (fs, r) => Except.ok (Value.obj fs, r)
      else if c = '[' then
        match skipWs rest with
        | [] => Except.error ("Expecting value")
        | d :: r2 =>
            if d = ']' then Except.ok (Value.arr [], r2)
            else
              match parseArrItems fuel (d :: r2) with
              | Except.error m => Except.error m
              | Except.ok (vs, r) => Except.ok (Value.arr vs, r)
      else if c = '-' then parseNumberAux true rest
      else if c.isDigit then parseNumberAux false (c :: rest)
      else
        match dropLit ['n', 'u', 'l', 'l'] (c :: rest) with
        | some r => Except.ok (Value.null, r)
        | none =>
            match dropLit ['t', 'r', 'u', 'e'] (c :: rest) with
            | some r => Except.ok (Value.bool true, r)
            | none =>
                match dropLit ['f', 'a', 'l', 's', 'e'] (c :: rest) with
                | some r => Except.ok (Value.bool false, r)
                | none => Except.error ("Expecting value")

/-- Comma-separated array items up to the closing bracket. -/
def parseArrItems : Nat → List Char → Except String (List Value × List Char)
  | 0, _ => Except.error ("Expecting value")
  | fuel + 1, cs =>
      match parseValueFuel fuel cs with
      | Except.error m => Except.error m
      | Except.ok (v, r) =>
          match skipWs r with
          | [] => Except.error ("Expecting comma delimiter")
          | c :: r2 =>
              if c = ',' then
                match parseArrItems fuel (skipWs r2) with
                | Except.error m => Except.error m
                | Except.ok (vs, r3) => Except.ok (v :: vs, r3)
              else if c = ']' then Except.ok ([v], r2)
              else Except.error ("Expecting comma delimiter")

/-- Comma-separated object members up to the closing brace. -/
def parseObjItems : Nat → List Char → Except String (List (String × Value) × List Char)
  | 0, _ => Except.error ("Expecting value")
  | fuel + 1, cs =>
      match cs with
      | [] => Except.error ("Expecting property name enclosed in double quotes")
      | c :: r =>
          if c = Char.ofNat 34 then
            match parseStringChars r with
            | Except.error m => Except.error m
            | Except.ok (kcs, r2) =>
                match skipWs r2 with
                | [] => Except.error ("Expecting colon delimiter")
                | d :: r3 =>
                    if d = ':' then
                      match parseValueFuel fuel (skipWs r3) with
                      | Except.error m => Except.error m
                      | Except.ok (v, r4) =>
                          match skipWs r4 with
                          | [] => Except.error ("Expecting comma delimiter")
                          | e :: r5 =>
                              if e = ',' then
                                match parseObjItems fuel (skipWs r5) with
                                | Except.error m => Except.error m
                                | Except.ok (fs, r6) =>
                                    Except.ok ((String.mk kcs, v) :: fs, r6)
                              else if e = Char.ofNat 125 then
                                Except.ok ([(String.mk kcs, v)], r5)
                              else Except.error ("Expecting comma delimiter")
                    else Except.error ("Expecting colon delimiter")
          else Except.error ("Expecting property name enclosed in double quotes")

end

/-- Model of `json.loads`: parse one JSON value and require the rest of
the input to be whitespace. -/
def jsonParse (s : String) : Except String Value :=
  match parseValueFuel (s.length + 1) (skipWs s.data) with
  | Except.error m => Except.error m
  | Except.ok (v, r) =>
      match skipWs r with
      | [] => Except.ok v
      | _ => Except.error ("Extra data")

/-- Is the parsed JSON value an object (`isinstance(query, dict)`)? -/
def isObjValue : Value → Bool
  | Value.obj _ => true
  | _ => false

/-! ### Model of the MongoDB store and the repository functions
(src/mongodb_conn.py, the async variants imported by src/main.py; the
synchronous package copy src/pratyayprofile_backend/mongodb_conn.py has
identical logic and is embedded separately where a claim cites it).

The store is the observable state behind the driver: the documents of
every (database, collection) pair plus a counter from which fresh
ObjectIds are drawn on insert.  Store-level failures (unreachable server)
are external and not modelled; every claim below is about the non-failing
store behaviour. -/

/-- The MongoDB store: documents per (database, collection), and the
counter generating fresh ObjectIds. -/
structure Store where
  colls : List ((String × String) × List Doc)
  counter : Nat

/-- The store with no documents. -/
def emptyStore : Store := ⟨[], 0⟩

/-- Documents of a collection (empty when it does not exist). -/
def Store.docs (st : Store) (db coll : String) : List Doc :=
  ((st.colls.find? (fun e => e.1 == (db, coll))).map (fun e => e.2)).getD []

/-- Replace the documents of a collection. -/
def Store.setDocs (st : Store) (db coll : String) (docs : List Doc) : Store :=
  if (st.colls.find? (fun e => e.1 == (db, coll))).isSome then
    { st with colls := st.colls.map (fun e => if e.1 == (db, coll) then ((db, coll), docs) else e) }
  else
    { st with colls := st.colls ++ [((db, coll), docs)] }

/-- Fresh 12-byte ObjectId drawn from the store counter (big-endian). -/
def natToOid (n : Nat) : List Nat :=
  (List.range 12).map (fun i => n / 256 ^ (11 - i) % 256)

/-- Does a document satisfy a Mongo equality filter?  Every filter the
handlers build is a conjunction of field equalities. -/
def docMatches (query : QueryFilter) (d : Doc) : Bool :=
  query.all (fun kv =>
    match dictGet d kv.1 with
    | some w => valueEq kv.2 w
    | none => false)

/-- Result of `insert_one`. -/
structure InsertOneResult where
  inserted_id : Value

/-- Result of `update_one`. -/
structure UpdateResult where
  matched_count : Int
  modified_count : Int

/-- Result of `delete_one`. -/
structure DeleteResult where
  deleted_count : Int

/-- A Mongo cursor: the matching documents and the limit clause applied
to it, if any (`collection.find` returns a cursor without a limit;
`cursor.limit(n)` records the clause). -/
structure Cursor where
  docs : List Doc
  lim : Option Int

/-- `collection.find(query)`: cursor over all matching documents, in
store order, with no limit clause. -/
def collectionFind (docs : List Doc) (query : QueryFilter) : Cursor :=
  ⟨docs.filter (docMatches query), none⟩

/-- `cursor.limit(n)`: record the limit clause. -/
def Cursor.setLimit (c : Cursor) (n : Int) : Cursor :=
  { c with lim := some n }

/-- Materialize a cursor (`[doc async for doc in cursor]` / `list(cursor)`).
A recorded limit of 0 means no limit (Mongo semantics); a negative limit
caps at its magnitude. -/
def Cursor.toList (c : Cursor) : List Doc :=
  match c.lim with
  | none => c.docs
  | some n => if n = 0 then c.docs else c.docs.take n.natAbs

/-- `post_data` (src/mongodb_conn.py lines 14-21): `insert_one` stores the
document, generating a fresh `_id` when the payload has none, and returns
the inserted id together with the updated store. -/
def post_data (st : Store) (db coll : String) (data : Doc) : InsertOneResult × Store :=
  match dictGet data ("_id") with
  | some v => (⟨v⟩, st.setDocs db coll (st.docs db coll ++ [data]))
  | none =>
      let newId := Value.oid (natToOid st.counter)
      let st2 := st.setDocs db coll (st.docs db coll ++ [dictSet data ("_id") newId])
      (⟨newId⟩, { st2 with counter := st.counter + 1 })

/-- `get_data` (src/mongodb_conn.py lines 24-34): `find_one(query)` when
the query dict is truthy, `find_one()` otherwise; the first match. -/
def get_data (st : Store) (db coll : String) (query : QueryFilter) : Option Doc :=
  if query.isEmpty then (st.docs db coll).head?
  else (st.docs db coll).find? (docMatches query)

/-- The cursor built by `get_multiple_data` before materializing:
`collection.find(query) if query else collection.find()`, then
`if limit: cursor = cursor.limit(limit)` — the clause is applied only for
a truthy (non-zero, non-None) limit. -/
def multiCursor (st : Store) (db coll : String) (query : QueryFilter) (limit : Option Int) : Cursor :=
  let cursor := if query.isEmpty then collectionFind (st.docs db coll) []
                else collectionFind (st.docs db coll) query
  match limit with
  | none => cursor
  | some l => if l = 0 then cursor else cursor.setLimit l

/-- `get_multiple_data` (src/mongodb_conn.py lines 37-51, async variant
used by main.py): materialize the cursor. -/
def get_multiple_data (st : Store) (db coll : String) (query : QueryFilter) (limit : Option Int) : List Doc :=
  (multiCursor st db coll query limit).toList

/-- `get_multiple_data` (src/pratyayprofile_backend/mongodb_conn.py lines
37-49, synchronous variant): identical query, limit-truthiness and
materialization logic (`list(cursor)`). -/
def pkg_get_multiple_data (st : Store) (db coll : String) (query : QueryFilter) (limit : Option Int) : List Doc :=
  (multiCursor st db coll query limit).toList

/-- Fold a `$set` payload into a document field by field. -/
def setFields (d : Doc) (fields : List (String × Value)) : Doc :=
  fields.foldl (fun acc kv => dictSet acc kv.1 kv.2) d

/-- The field assignments of a Mongo update document (the handlers always
pass an update of the shape `$set: payload`). -/
def updSetFields (upd : Doc) : List (String × Value) :=
  match dictGet upd ("$set") with
  | some (Value.obj f) => f
  | _ => []

/-- `update_one`: apply the `$set` to the first matching document;
matched/modified counts (`modified_count` is 0 when the set leaves the
document unchanged). -/
def updateFirst (filter : QueryFilter) (set : List (String × Value)) :
    List Doc → (List Doc × Nat × Nat)
  | [] => ([], 0, 0)
  | d :: rest =>
      if docMatches filter d then
        let d2 := setFields d set
        (d2 :: rest, 1, if fieldListEq d2 d then 0 else 1)
      else
        let r := updateFirst filter set rest
        (d :: r.1, r.2.1, r.2.2)

/-- `data_update` (src/mongodb_conn.py lines 54-63): `update_one` on the
collection, returning the result and the updated store. -/
def data_update (st : Store) (db coll : String) (filter : QueryFilter) (upd : Doc) :
    UpdateResult × Store :=
  let r := updateFirst filter (updSetFields upd) (st.docs db coll)
  (⟨Int.ofNat r.2.1, Int.ofNat r.2.2⟩, st.setDocs db coll r.1)

/-- `delete_one`: remove the first matching document. -/
def deleteFirst (filter : QueryFilter) : List Doc → (List Doc × Nat)
  | [] => ([], 0)
  | d :: rest =>
      if docMatches filter d then (rest, 1)
      else
        let r := deleteFirst filter rest
        (d :: r.1, r.2)

/-- `data_delete` (src/mongodb_conn.py lines 66-73): `delete_one` on the
collection, returning the result and the updated store. -/
def data_delete (st : Store) (db coll : String) (filter : QueryFilter) :
    DeleteResult × Store :=
  let r := deleteFirst filter (st.docs db coll)
  (⟨Int.ofNat r.2⟩, st.setDocs db coll r.1)

/-! ### The FastAPI handlers (src/main.py)

Each handler is embedded as a function from its request parameters and
the store to a `HandlerResult`: the HTTP status code, the JSON body, the
list of repository calls it issued (in order), and the resulting store.
`HTTPException(status, detail)` surfaces as the FastAPI body
`detail: message`.  The admin secret `ADMIN_PASS` and the `X-Password`
header are `Option String` (absent environment variable / absent header
is `none`). -/

/-- One repository invocation, as issued by a handler. -/
inductive RepoCall where
  | post : String → String → Doc → RepoCall
  | get : String → String → QueryFilter → RepoCall
  | getMultiple : String → String → QueryFilter → Option Int → RepoCall
  | update : String → String → QueryFilter → Doc → RepoCall
  | delete : String → String → QueryFilter → RepoCall

/-- Observable outcome of one request. -/
structure HandlerResult where
  status : Nat
  body : Value
  calls : List RepoCall
  store : Store

/-- FastAPI error body for `HTTPException(status_code, detail)`. -/
def errBody (msg : String) : Value :=
  Value.obj [("detail", Value.str msg)]

/-- The 403 detail used by every mutation endpoint. -/
def forbiddenDetail : String :=
  "Forbidden: invalid admin password for users collection"

/-- The guard `not admin_pass or x_password != admin_pass` repeated in all
five mutation handlers: rejects when `ADMIN_PASS` is unset or empty, or
the `X-Password` header differs from it. -/
def adminRejected (admin_pass x_password : Option String) : Bool :=
  match admin_pass with
  | none => true
  | some p => if p = "" then true else if x_password = some p then false else true

/-- `create_data`: `POST /message` (src/main.py lines 64-90). -/
def create_data (admin_pass : Option String) (database collection : String)
    (payload : Doc) (x_password : Option String) (st : Store) : HandlerResult :=
  if adminRejected admin_pass x_password then
    ⟨403, errBody forbiddenDetail, [], st⟩
  else
    let r := post_data st database collection payload
    ⟨201,
     Value.obj [("inserted_id",
       match r.1.inserted_id with
       | Value.null => Value.null
       | v => Value.str (valueStr v))],
     [RepoCall.post database collection payload], r.2⟩

/-- `create_data_headers`: `POST /data/headers` (src/main.py lines
247-275); database and collection come from `X-Database`/`X-Collection`. -/
def create_data_headers (admin_pass : Option String) (x_database x_collection : String)
    (payload : Doc) (x_password : Option String) (st : Store) : HandlerResult :=
  if adminRejected admin_pass x_password then
    ⟨403, errBody forbiddenDetail, [], st⟩
  else
    let r := post_data st x_database x_collection payload
    ⟨201,
     Value.obj [("inserted_id",
       match r.1.inserted_id with
       | Value.null => Value.null
       | v => Value.str (valueStr v))],
     [RepoCall.post x_database x_collection payload], r.2⟩

/-- Shared success path of the two list endpoints: fetch with the parsed
query and the optional limit, serialize each document. -/
def listRun (database collection : String) (limit : Option Int) (st : Store)
    (query : QueryFilter) : HandlerResult :=
  let results := get_multiple_data st database collection query limit
  ⟨200, Value.arr (results.map (fun r => Value.obj (serializeDocSome r))),
   [RepoCall.getMultiple database collection query limit], st⟩

/-- `list_data`: `GET /data` (src/main.py lines 93-124).  A falsy (absent
or empty) `q` means no filter.  A JSON parse failure is caught as a 400.
A parse to a non-dict raises `ValueError`, which the inner
`except json.JSONDecodeError` does NOT catch (JSONDecodeError is a
subclass of ValueError, not the converse), so it falls to the outer
`except Exception` and becomes a 500. -/
def list_data (database collection : String) (q : Option String)
    (limit : Option Int) (st : Store) : HandlerResult :=
  match q with
  | none => listRun database collection limit st []
  | some s =>
      if s = "" then listRun database collection limit st []
      else
        match jsonParse s with
        | Except.error m =>
            ⟨400, errBody ("Invalid JSON for query: " ++ m), [], st⟩
        | Except.ok v =>
            match v with
            | Value.obj fields => listRun database collection limit st fields
            | _ => ⟨500, errBody ("Failed to list data: Query must be a JSON object"), [], st⟩

/-- `list_data_headers`: `GET /data/headers` (src/main.py lines 278-315);
query and limit come from `X-Query`/`X-Limit`, logic identical to
`list_data`. -/
def list_data_headers (x_database x_collection : String) (x_query : Option String)
    (x_limit : Option Int) (st : Store) : HandlerResult :=
  match x_query with
  | none => listRun x_database x_collection x_limit st []
  | some s =>
      if s = "" then listRun x_database x_collection x_limit st []
      else
        match jsonParse s with
        | Except.error m =>
            ⟨400, errBody ("Invalid JSON for query: " ++ m), [], st⟩
        | Except.ok v =>
            match v with
            | Value.obj fields => listRun x_database x_collection x_limit st fields
            | _ => ⟨500, errBody ("Failed to list data: Query must be a JSON object"), [], st⟩

/-- `get_document`: `GET /data/db/coll/id` (src/main.py lines
127-145).  An unparsable id is a 400 before any repository call; a falsy
result (absent document or empty dict) is a 404. -/
def get_document (database collection id : String) (st : Store) : HandlerResult :=
  match objectIdParse id with
  | none => ⟨400, errBody ("Invalid ObjectId format"), [], st⟩
  | some o =>
      let result := get_data st database collection [("_id", Value.oid o)]
      let call := RepoCall.get database collection [("_id", Value.oid o)]
      match serializeDoc result with
      | none => ⟨404, errBody ("Document not found"), [call], st⟩
      | some d =>
          if d.isEmpty then ⟨404, errBody ("Document not found"), [call], st⟩
          else ⟨200, Value.obj d, [call], st⟩

/-- `get_document_headers`: `GET /data/headers/document` (src/main.py
lines 318-344); id comes from `X-Id`, logic identical to `get_document`. -/
def get_document_headers (x_database x_collection x_id : String) (st : Store) : HandlerResult :=
  match objectIdParse x_id with
  | none => ⟨400, errBody ("Invalid ObjectId format"), [], st⟩
  | some o =>
      let result := get_data st x_database x_collection [("_id", Value.oid o)]
      let call := RepoCall.get x_database x_collection [("_id", Value.oid o)]
      match serializeDoc result with
      | none => ⟨404, errBody ("Document not found"), [call], st⟩
      | some d =>
          if d.isEmpty then ⟨404, errBody ("Document not found"), [call], st⟩
          else ⟨200, Value.obj d, [call], st⟩

/-- `update_document`: `PUT /data/db/coll/id` (src/main.py lines
148-183).  Id parse happens before the admin gate; the update document is
`$set: payload`. -/
def update_document (admin_pass : Option String) (database collection id : String)
    (payload : Doc) (x_password : Option String) (st : Store) : HandlerResult :=
  match objectIdParse id with
  | none => ⟨400, errBody ("Invalid ObjectId format"), [], st⟩
  | some o =>
      if adminRejected admin_pass x_password then
        ⟨403, errBody forbiddenDetail, [], st⟩
      else
        let upd : Doc := [("$set", Value.obj payload)]
        let r := data_update st database collection [("_id", Value.oid o)] upd
        ⟨200,
         Value.obj [("matched_count", Value.num r.1.matched_count),
                    ("modified_count", Value.num r.1.modified_count)],
         [RepoCall.update database collection [("_id", Value.oid o)] upd], r.2⟩

/-- `update_document_headers`: `PUT /data/headers/document` (src/main.py
lines 347-384); identical logic on the header parameters. -/
def update_document_headers (admin_pass : Option String) (x_database x_collection x_id : String)
    (payload : Doc) (x_password : Option String) (st : Store) : HandlerResult :=
  match objectIdParse x_id with
  | none => ⟨400, errBody ("Invalid ObjectId format"), [], st⟩
  | some o =>
      if adminRejected admin_pass x_password then
        ⟨403, errBody forbiddenDetail, [], st⟩
      else
        let upd : Doc := [("$set", Value.obj payload)]
        let r := data_update st x_database x_collection [("_id", Value.oid o)] upd
        ⟨200,
         Value.obj [("matched_count", Value.num r.1.matched_count),
                    ("modified_count", Value.num r.1.modified_count)],
         [RepoCall.update x_database x_collection [("_id", Value.oid o)] upd], r.2⟩

/-- `delete_document`: `DELETE /data/db/coll/id` (src/main.py lines
186-215). -/
def delete_document (admin_pass : Option String) (database collection id : String)
    (x_password : Option String) (st : Store) : HandlerResult :=
  match objectIdParse id with
  | none => ⟨400, errBody ("Invalid ObjectId format"), [], st⟩
  | some o =>
      if adminRejected admin_pass x_password then
        ⟨403, errBody forbiddenDetail, [], st⟩
      else
        let r := data_delete st database collection [("_id", Value.oid o)]
        ⟨200, Value.obj [("deleted_count", Value.num r.1.deleted_count)],
         [RepoCall.delete database collection [("_id", Value.oid o)]], r.2⟩

/-- `delete_document_headers`: `DELETE /data/headers/document`
(src/main.py lines 387-419); identical logic on the header parameters. -/
def delete_document_headers (admin_pass : Option String) (x_database x_collection x_id : String)
    (x_password : Option String) (st : Store) : HandlerResult :=
  match objectIdParse x_id with
  | none => ⟨400, errBody ("Invalid ObjectId format"), [], st⟩
  | some o =>
      if adminRejected admin_pass x_password then
        ⟨403, errBody forbiddenDetail, [], st⟩
      else
        let r := data_delete st x_database x_collection [("_id", Value.oid o)]
        ⟨200, Value.obj [("deleted_count", Value.num r.1.deleted_count)],
         [RepoCall.delete x_database x_collection [("_id", Value.oid o)]], r.2⟩

/-! ### The connection manager (src/pratyayprofile_backend/mongodb.py)

`MongoConnectionManager.__init__` reads `MONGODB_URL`, raises `ValueError`
when it is unset (or empty — Python truthiness), and constructs one
`AsyncIOMotorClient`.  `LazyConnectionManager` holds an optional inner
manager, created on first use.  Client construction is modelled by drawing
a fresh client identity from a counter and adding it to the set of active
(constructed and not yet closed) clients; this makes client identity and
lifetime observable. -/

/-- The error message of the missing connection string. -/
def mongoUrlError : String :=
  "MONGODB_URL environment variable is not set"

/-- An initialized `MongoConnectionManager`: the connection string it read
and the identity of the client it constructed.  The `_clients` dict of the
source is never used and is not modelled; the fixed pool parameters are
driver configuration with no observable behaviour here. -/
structure MongoManager where
  uri : String
  clientId : Nat

/-- Process state of the lazy wrapper: the inner manager (if created),
the next fresh client identity, and the identities of clients constructed
and not yet closed. -/
structure LazyState where
  inst : Option MongoManager
  nextClientId : Nat
  active : List Nat

/-- `connection_manager = LazyConnectionManager()` at import time: no
environment read, no client, nothing can fail. -/
def initLazyState : LazyState :=
  ⟨none, 0, []⟩

/-- `MongoConnectionManager()` (src/pratyayprofile_backend/mongodb.py
lines 12-26): read `MONGODB_URL`, fail when falsy, otherwise construct a
client.  Returns the manager and the state after the construction. -/
def mkMongoManager (mongoUrl : Option String) (st : LazyState) :
    Except String (MongoManager × LazyState) :=
  match mongoUrl with
  | none => Except.error mongoUrlError
  | some u =>
      if u = "" then Except.error mongoUrlError
      else
        Except.ok (⟨u, st.nextClientId⟩,
          { st with nextClientId := st.nextClientId + 1,
                    active := st.active ++ [st.nextClientId] })

/-- `LazyConnectionManager._get_instance` (lines 56-59): reuse the inner
manager or create it on first use. -/
def getInstance (mongoUrl : Option String) (st : LazyState) :
    Except String (MongoManager × LazyState) :=
  match st.inst with
  | some m => Except.ok (m, st)
  | none =>
      match mkMongoManager mongoUrl st with
      | Except.error e => Except.error e
      | Except.ok (m, st2) => Except.ok (m, { st2 with inst := some m })

/-- A database/collection handle: derived from the client by name,
carrying no state of its own (`client[database][collection]`). -/
structure CollectionHandle where
  clientId : Nat
  database : String
  collection : String

/-- `LazyConnectionManager.get_collection` (lines 64-65), through
`MongoConnectionManager.get_collection` (lines 32-35). -/
def lazyGetCollection (mongoUrl : Option String) (db coll : String) (st : LazyState) :
    Except String (CollectionHandle × LazyState) :=
  match getInstance mongoUrl st with
  | Except.error e => Except.error e
  | Except.ok (m, st2) => Except.ok (⟨m.clientId, db, coll⟩, st2)

/-- `MongoConnectionManager.close_connection` (lines 37-40): the client is
always truthy, so it is closed (removed from the active set; the manager
keeps pointing at it). -/
def managerCloseClient (m : MongoManager) (st : LazyState) : LazyState :=
  { st with active := st.active.erase m.clientId }

/-- `LazyConnectionManager.close_connection` (lines 67-73): close the
inner manager if created; otherwise construct a throwaway
`MongoConnectionManager()` — which reads `MONGODB_URL` and can raise —
and immediately close it. -/
def lazyCloseConnection (mongoUrl : Option String) (st : LazyState) :
    Except String LazyState :=
  match st.inst with
  | some m => Except.ok (managerCloseClient m st)
  | none =>
      match mkMongoManager mongoUrl st with
      | Except.error e => Except.error e
      | Except.ok (temp, st2) => Except.ok (managerCloseClient temp st2)

/-- Run a sequence of `get_collection` requests, threading the state (a
failed call leaves the state unchanged, as the exception propagates). -/
def runLazyGets (mongoUrl : Option String) : List (String × String) → LazyState → LazyState
  | [], st => st
  | (db, coll) :: rest, st =>
      match lazyGetCollection mongoUrl db coll st with
      | Except.error _ => runLazyGets mongoUrl rest st
      | Except.ok (_, st2) => runLazyGets mongoUrl rest st2

/-- The transformation `serialize_doc` applies to the value of the `_id`
field: a non-null value is replaced by its string rendering, null is kept. -/
def serializeIdValue (v : Value) : Value :=
  if valueIsNull v then v else Value.str (valueStr v)

/-- Is a status code a client error (4xx)? -/
def isClientError (status : Nat) : Bool :=
  400 ≤ status && status < 500

/-! ### Helper lemmas -/

/-- The condition of claim C1 implies the guard of the mutation handlers. -/
theorem adminRejected_of_condition (ap pw : Option String)
    (h : ap = none ∨ pw = none ∨ pw ≠ ap) : adminRejected ap pw = true := by
  match ap with
  | none => rfl
  | some p =>
      simp only [adminRejected]
      by_cases hp : p = ""
      · simp [hp]
      · simp only [hp, if_false]
        by_cases hpw : pw = some p
        · rcases h with h | h | h
          · exact absurd h (by simp)
          · rw [hpw] at h; exact absurd h (by simp)
          · exact absurd hpw h
        · simp [hpw]

/-! ### Claims -/

/-- Claim C2: for every pair of one path-addressed and one header-addressed
request with equivalent parameters (same database, collection,
identifier/query/limit, body and password), the two handlers issue
identical repository calls and, against the same store state, produce
identical results (same status code, same response body, same final
store). -/
theorem c2_path_header_equivalence :
    ∀ (admin_pass x_password : Option String) (db coll id : String)
      (payload : Doc) (q : Option String) (lim : Option Int) (st : Store),
      create_data admin_pass db coll payload x_password st
        = create_data_headers admin_pass db coll payload x_password st
      ∧ list_data db coll q lim st = list_data_headers db coll q lim st
      ∧ get_document db coll id st = get_document_headers db coll id st
      ∧ update_document admin_pass db coll id payload x_password st
          = update_document_headers admin_pass db coll id payload x_password st
      ∧ delete_document admin_pass db coll id x_password st
          = delete_document_headers admin_pass db coll id x_password st :=
  fun _ _ _ _ _ _ _ _ _ => ⟨rfl, rfl, rfl, rfl, rfl⟩

/-- Claim C9: calling the many-document read with limit 0 does not apply
the limit clause and returns the same result as calling with no limit at
all (both embedded repository variants); the limit clause is recorded on
the cursor exactly for non-zero limit values. -/
theorem c9_limit_zero_means_no_limit :
    ∀ (st : Store) (db coll : String) (q : QueryFilter),
      get_multiple_data st db coll q (some 0) = get_multiple_data st db coll q none
      ∧ pkg_get_multiple_data st db coll q (some 0) = pkg_get_multiple_data st db coll q none
      ∧ ∀ l : Int, (multiCursor st db coll q (some l)).lim
          = if l = 0 then none else some l := by
  intro st db coll q
  refine ⟨rfl, rfl, ?_⟩
  intro l
  by_cases hl : l = 0
  · subst hl
    show (multiCursor st db coll q none).lim = none
    by_cases h : q.isEmpty <;> simp [multiCursor, h, collectionFind]
  · simp only [multiCursor, if_neg hl]
    rfl

/-- Claim C5: an identifier string that is not a valid 24-hex-character
identifier makes every document endpoint (path or header addressed) fail
with a 400 client error, with no repository call and an unchanged store. -/
theorem c5_invalid_id_client_error
    (database collection id : String) (payload : Doc)
    (admin_pass x_password : Option String) (st : Store)
    (hid : objectIdParse id = none) :
    get_document database collection id st
      = ⟨400, errBody ("Invalid ObjectId format"), [], st⟩
    ∧ get_document_headers database collection id st
      = ⟨400, errBody ("Invalid ObjectId format"), [], st⟩
    ∧ update_document admin_pass database collection id payload x_password st
      = ⟨400, errBody ("Invalid ObjectId format"), [], st⟩
    ∧ update_document_headers admin_pass database collection id payload x_password st
      = ⟨400, errBody ("Invalid ObjectId format"), [], st⟩
    ∧ delete_document admin_pass database collection id x_password st
      = ⟨400, errBody ("Invalid ObjectId format"), [], st⟩
    ∧ delete_document_headers admin_pass database collection id x_password st
      = ⟨400, errBody ("Invalid ObjectId format"), [], st⟩ := by
  refine ⟨?_, ?_, ?_, ?_, ?_, ?_⟩ <;>
    simp [get_document, get_document_headers, update_document,
      update_document_headers, delete_document, delete_document_headers, hid]

/-- Witness for C5 at the concrete non-hex identifier string `zzz`. -/
theorem c5_invalid_id_client_error_witness :
    objectIdParse ("zzz") = none
    ∧ get_document ("db") ("c") ("zzz") emptyStore
        = ⟨400, errBody ("Invalid ObjectId format"), [], emptyStore⟩ :=
  ⟨rfl, (c5_invalid_id_client_error ("db") ("c") ("zzz") [] none none emptyStore rfl).1⟩

/-- Claim C1: whenever the admin secret is unconfigured, or the
`X-Password` header is absent or differs from it, every mutation handler
(insert, update with a parsable id, delete with a parsable id, in both
addressing modes) rejects with 403, issues no repository call and leaves
the store unchanged — regardless of the payload. -/
theorem c1_mutations_fail_closed
    (admin_pass x_password : Option String) (database collection id : String)
    (payload : Doc) (st : Store) (o : List Nat)
    (hcond : admin_pass = none ∨ x_password = none ∨ x_password ≠ admin_pass)
    (hid : objectIdParse id = some o) :
    create_data admin_pass database collection payload x_password st
      = ⟨403, errBody forbiddenDetail, [], st⟩
    ∧ create_data_headers admin_pass database collection payload x_password st
      = ⟨403, errBody forbiddenDetail, [], st⟩
    ∧ update_document admin_pass database collection id payload x_password st
      = ⟨403, errBody forbiddenDetail, [], st⟩
    ∧ update_document_headers admin_pass database collection id payload x_password st
      = ⟨403, errBody forbiddenDetail, [], st⟩
    ∧ delete_document admin_pass database collection id x_password st
      = ⟨403, errBody forbiddenDetail, [], st⟩
    ∧ delete_document_headers admin_pass database collection id x_password st
      = ⟨403, errBody forbiddenDetail, [], st⟩ := by
  have hrej := adminRejected_of_condition admin_pass x_password hcond
  refine ⟨?_, ?_, ?_, ?_, ?_, ?_⟩ <;>
    simp [create_data, create_data_headers, update_document,
      update_document_headers, delete_document, delete_document_headers, hid, hrej]

/-- Witness for C1: unconfigured secret, absent header, valid id. -/
theorem c1_mutations_fail_closed_witness :
    objectIdParse ("aaaaaaaaaaaaaaaaaaaaaaaa")
      = some (hexPairsToBytes (String.data ("aaaaaaaaaaaaaaaaaaaaaaaa")))
    ∧ create_data none ("db") ("c") [] none emptyStore
        = ⟨403, errBody forbiddenDetail, [], emptyStore⟩
    ∧ update_document none ("db") ("c") ("aaaaaaaaaaaaaaaaaaaaaaaa") [] none emptyStore
        = ⟨403, errBody forbiddenDetail, [], emptyStore⟩ :=
  ⟨rfl,
   (c1_mutations_fail_closed none none ("db") ("c") ("aaaaaaaaaaaaaaaaaaaaaaaa") []
     emptyStore (hexPairsToBytes (String.data ("aaaaaaaaaaaaaaaaaaaaaaaa")))
     (Or.inl rfl) rfl).1,
   (c1_mutations_fail_closed none none ("db") ("c") ("aaaaaaaaaaaaaaaaaaaaaaaa") []
     emptyStore (hexPairsToBytes (String.data ("aaaaaaaaaaaaaaaaaaaaaaaa")))
     (Or.inl rfl) rfl).2.2.1⟩

/-- `update_one` on a collection with no matching document touches nothing
and reports zero matched/modified. -/
theorem updateFirst_of_no_match (f : QueryFilter) (set : List (String × Value))
    (docs : List Doc) (h : ∀ d ∈ docs, docMatches f d = false) :
    updateFirst f set docs = (docs, 0, 0) := by
  induction docs with
  | nil => rfl
  | cons d rest ih =>
      have hd := h d (by simp)
      have ih2 := ih (fun x hx => h x (by simp [hx]))
      simp [updateFirst, hd, ih2]

/-- `delete_one` on a collection with no matching document touches nothing
and reports zero deleted. -/
theorem deleteFirst_of_no_match (f : QueryFilter) (docs : List Doc)
    (h : ∀ d ∈ docs, docMatches f d = false) :
    deleteFirst f docs = (docs, 0) := by
  induction docs with
  | nil => rfl
  | cons d rest ih =>
      have hd := h d (by simp)
      have ih2 := ih (fun x hx => h x (by simp [hx]))
      simp [deleteFirst, hd, ih2]

/-- Claim C6: an authorized update or delete whose filter matches zero
documents succeeds with status 200 (no error): the update reports
matched_count 0 and modified_count 0, the delete reports deleted_count 0,
in both addressing modes. -/
theorem c6_zero_match_mutations
    (p database collection id : String) (payload : Doc) (st : Store) (o : List Nat)
    (hp : p ≠ "")
    (hid : objectIdParse id = some o)
    (hnone : ∀ d ∈ st.docs database collection, docMatches [("_id", Value.oid o)] d = false) :
    ((update_document (some p) database collection id payload (some p) st).status = 200
      ∧ (update_document (some p) database collection id payload (some p) st).body
          = Value.obj [("matched_count", Value.num 0), ("modified_count", Value.num 0)])
    ∧ ((update_document_headers (some p) database collection id payload (some p) st).status = 200
      ∧ (update_document_headers (some p) database collection id payload (some p) st).body
          = Value.obj [("matched_count", Value.num 0), ("modified_count", Value.num 0)])
    ∧ ((delete_document (some p) database collection id (some p) st).status = 200
      ∧ (delete_document (some p) database collection id (some p) st).body
          = Value.obj [("deleted_count", Value.num 0)])
    ∧ ((delete_document_headers (some p) database collection id (some p) st).status = 200
      ∧ (delete_document_headers (some p) database collection id (some p) st).body
          = Value.obj [("deleted_count", Value.num 0)]) := by
  have hrej : adminRejected (some p) (some p) = false := by simp [adminRejected, hp]
  have hu := updateFirst_of_no_match [("_id", Value.oid o)]
    (updSetFields [("$set", Value.obj payload)]) (st.docs database collection) hnone
  have hd := deleteFirst_of_no_match [("_id", Value.oid o)] (st.docs database collection) hnone
  refine ⟨⟨?_, ?_⟩, ⟨?_, ?_⟩, ⟨?_, ?_⟩, ⟨?_, ?_⟩⟩ <;>
    simp [update_document, update_document_headers, delete_document,
      delete_document_headers, hid, hrej, data_update, data_delete, hu, hd]

/-- Witness for C6 on the empty store. -/
theorem c6_zero_match_mutations_witness :
    (update_document (some ("pw")) ("db") ("c") ("aaaaaaaaaaaaaaaaaaaaaaaa") []
        (some ("pw")) emptyStore).body
      = Value.obj [("matched_count", Value.num 0), ("modified_count", Value.num 0)]
    ∧ (delete_document (some ("pw")) ("db") ("c") ("aaaaaaaaaaaaaaaaaaaaaaaa")
        (some ("pw")) emptyStore).body
      = Value.obj [("deleted_count", Value.num 0)] :=
  ⟨(c6_zero_match_mutations ("pw") ("db") ("c") ("aaaaaaaaaaaaaaaaaaaaaaaa") [] emptyStore
      (hexPairsToBytes (String.data ("aaaaaaaaaaaaaaaaaaaaaaaa")))
      (by decide) rfl (by intro d hd; simp [Store.docs, emptyStore] at hd)).1.2,
   (c6_zero_match_mutations ("pw") ("db") ("c") ("aaaaaaaaaaaaaaaaaaaaaaaa") [] emptyStore
      (hexPairsToBytes (String.data ("aaaaaaaaaaaaaaaaaaaaaaaa")))
      (by decide) rfl (by intro d hd; simp [Store.docs, emptyStore] at hd)).2.2.1.2⟩

/-- Counterexample to claim C3 as stated: the concrete query string `[1]`
parses as a JSON array (a non-object JSON value), yet the request fails
with a 500 server error, not a 4xx client error (the handler raises a
plain `ValueError`, which the inner `except json.JSONDecodeError` clause
does not catch); and the concrete query string that is empty is malformed
JSON, yet the request succeeds with 200 instead of failing (the handler
treats a falsy query string as no query). -/
theorem c3_counterexample :
    jsonParse ("[1]") = Except.ok (Value.arr [Value.num 1])
    ∧ (list_data ("db") ("c") (some ("[1]")) none emptyStore).status = 500
    ∧ isClientError ((list_data ("db") ("c") (some ("[1]")) none emptyStore).status) = false
    ∧ (list_data ("db") ("c") (some ("[1]")) none emptyStore).calls = []
    ∧ jsonParse ("") = Except.error ("Expecting value")
    ∧ (list_data ("db") ("c") (some ("")) none emptyStore).status = 200 := by
  refine ⟨?_, ?_, ?_, ?_, ?_, ?_⟩ <;> rfl

/-- Claim C3 (amended): for every non-empty query string supplied to the
list endpoints, a parse to a non-object JSON value fails the request with
a 500 server error (surfacing the message that the query must be a JSON
object) before any repository call, and malformed JSON fails it with a
400 client error surfacing the parse failure, also before any repository
call; the empty query string is treated as no query at all. -/
theorem c3_query_validation_amended
    (database collection : String) (lim : Option Int) (st : Store) (s : String)
    (hs : s ≠ "") :
    (∀ v : Value, jsonParse s = Except.ok v → isObjValue v = false →
      list_data database collection (some s) lim st
        = ⟨500, errBody ("Failed to list data: Query must be a JSON object"), [], st⟩
      ∧ list_data_headers database collection (some s) lim st
        = ⟨500, errBody ("Failed to list data: Query must be a JSON object"), [], st⟩)
    ∧ (∀ m : String, jsonParse s = Except.error m →
      list_data database collection (some s) lim st
        = ⟨400, errBody ("Invalid JSON for query: " ++ m), [], st⟩
      ∧ list_data_headers database collection (some s) lim st
        = ⟨400, errBody ("Invalid JSON for query: " ++ m), [], st⟩)
    ∧ list_data database collection (some ("")) lim st
        = list_data database collection none lim st := by
  refine ⟨?_, ?_, rfl⟩
  · intro v hv hobj
    constructor <;>
      · simp only [list_data, list_data_headers, if_neg hs, hv]
        cases v <;> simp_all [isObjValue]
  · intro m hm
    constructor <;> simp [list_data, list_data_headers, hs, hm]

/-- Witness for the amended C3 at the concrete non-object query `[1]`. -/
theorem c3_query_validation_amended_witness :
    jsonParse ("[1]") = Except.ok (Value.arr [Value.num 1])
    ∧ list_data ("db") ("c") (some ("[1]")) none emptyStore
        = ⟨500, errBody ("Failed to list data: Query must be a JSON object"), [], emptyStore⟩ :=
  ⟨rfl,
   ((c3_query_validation_amended ("db") ("c") none emptyStore ("[1]") (by decide)).1
     (Value.arr [Value.num 1]) rfl rfl).1⟩

/-- Rewriting the `_id` binding keeps the key list. -/
theorem map_fst_map_id_set (d : Doc) (w : Value) :
    (d.map (fun kv => if kv.1 == ("_id") then (("_id"), w) else kv)).map Prod.fst
      = d.map Prod.fst := by
  rw [List.map_map]
  apply List.map_congr_left
  intro kv _
  by_cases h : kv.1 = "_id" <;> simp [h]

/-- Lookup after rewriting the `_id` binding: the `_id` key sees the new
value (when it was present), every other key is untouched. -/
theorem dictGet_map_id_set (d : Doc) (w : Value) (k : String) :
    dictGet (d.map (fun kv => if kv.1 == ("_id") then (("_id"), w) else kv)) k
      = if k = "_id" then (dictGet d ("_id")).map (fun _ => w) else dictGet d k := by
  by_cases hk : k = "_id"
  · subst hk
    rw [if_pos rfl]
    unfold dictGet
    rw [List.find?_map]
    have hpred : ((fun kv : String × Value => kv.1 == ("_id")) ∘
        (fun kv => if kv.1 == ("_id") then (("_id"), w) else kv))
        = fun kv : String × Value => kv.1 == ("_id") := by
      funext kv
      by_cases h : kv.1 = "_id" <;> simp [h]
    rw [hpred]
    cases hfind : List.find? (fun kv : String × Value => kv.1 == ("_id")) d with
    | none => simp
    | some a =>
        have ha : a.1 = "_id" := by
          have := List.find?_some hfind
          simpa using this
        simp [ha]
  · rw [if_neg hk]
    unfold dictGet
    rw [List.find?_map]
    have hpred : ((fun kv : String × Value => kv.1 == k) ∘
        (fun kv => if kv.1 == ("_id") then (("_id"), w) else kv))
        = fun kv : String × Value => kv.1 == k := by
      funext kv
      by_cases h : kv.1 = "_id"
      · simp [h, fun hh : ("_id" : String) = k => hk hh.symm]
      · simp [h]
    rw [hpred]
    cases hfind : List.find? (fun kv : String × Value => kv.1 == k) d with
    | none => simp
    | some a =>
        have ha : a.1 = k := by
          have := List.find?_some hfind
          simpa using this
        have hane : ¬(a.1 = "_id") := by rw [ha]; exact hk
        simp [hane]

/-- A successful `dict.get` means the key is present. -/
theorem isSome_find_of_dictGet (d : Doc) (k : String) (v : Value)
    (h : dictGet d k = some v) : (d.find? (fun kv => kv.1 == k)).isSome := by
  unfold dictGet at h
  cases hf : d.find? (fun kv => kv.1 == k) with
  | none => rw [hf] at h; simp at h
  | some a => simp

/-- A value the serializer never transforms (null) is its own image. -/
theorem serializeIdValue_null : serializeIdValue Value.null = Value.null := rfl

/-- Claim C10: the response serializer maps `None` to `None`; on a dict it
returns a dict with exactly the same keys, where every field other than
`_id` is unchanged and a present non-null `_id` is replaced by its string
rendering (`serializeIdValue`); the embedding is a pure function of the
input (the source copies the dict before writing), so the input document
is never mutated. -/
theorem c10_serialize_doc_frame :
    serializeDoc none = none
    ∧ ∀ d : Doc,
        serializeDoc (some d) = some (serializeDocSome d)
        ∧ (serializeDocSome d).map Prod.fst = d.map Prod.fst
        ∧ ∀ k : String, dictGet (serializeDocSome d) k
            = if k = "_id" then (dictGet d k).map serializeIdValue else dictGet d k := by
  refine ⟨rfl, fun d => ⟨rfl, ?_, ?_⟩⟩
  · unfold serializeDocSome
    cases hid : dictGet d ("_id") with
    | none => rfl
    | some v =>
        by_cases hn : valueIsNull v
        · simp [hn]
        · simp only [hn, Bool.false_eq_true, if_false]
          unfold dictSet
          rw [if_pos (isSome_find_of_dictGet d ("_id") v hid)]
          exact map_fst_map_id_set d _
  · intro k
    unfold serializeDocSome
    cases hid : dictGet d ("_id") with
    | none =>
        by_cases hk : k = "_id"
        · subst hk; simp [hid]
        · simp [hk]
    | some v =>
        by_cases hn : valueIsNull v
        · have hv : v = Value.null := by
            cases v <;> simp [valueIsNull] at hn ⊢
          subst hv
          simp only [hn, if_true]
          by_cases hk : k = "_id"
          · subst hk; simp [hid, serializeIdValue_null]
          · simp [hk]
        · simp only [hn, Bool.false_eq_true, if_false]
          unfold dictSet
          rw [if_pos (isSome_find_of_dictGet d ("_id") v hid)]
          rw [dictGet_map_id_set]
          by_cases hk : k = "_id"
          · subst hk
            rw [if_pos rfl, if_pos rfl, hid]
            simp [serializeIdValue, hn]
          · rw [if_neg hk, if_neg hk]

/-- A lower-case-or-digit hex character decodes: digit range. -/
theorem hexDigitVal_digit (n : Nat) (h1 : 48 ≤ n) (h2 : n ≤ 57) :
    hexDigitVal n = some (n - 48) := by
  unfold hexDigitVal
  rw [if_pos ⟨h1, h2⟩]

/-- A lower-case-or-digit hex character decodes: letter range. -/
theorem hexDigitVal_lower (n : Nat) (h1 : 97 ≤ n) (h2 : n ≤ 102) :
    hexDigitVal n = some (n - 87) := by
  unfold hexDigitVal
  rw [if_neg (by omega), if_pos ⟨h1, h2⟩]

/-- A hex character decodes: upper-case letter range. -/
theorem hexDigitVal_upper (n : Nat) (h1 : 65 ≤ n) (h2 : n ≤ 70) :
    hexDigitVal n = some (n - 55) := by
  unfold hexDigitVal
  rw [if_neg (by omega), if_neg (by omega), if_pos ⟨h1, h2⟩]

/-- A hex character code lies in the digit, lower-case or upper-case range. -/
theorem isHexChar_ranges (c : Char) (h : isHexChar c = true) :
    (48 ≤ c.toNat ∧ c.toNat ≤ 57) ∨ (97 ≤ c.toNat ∧ c.toNat ≤ 102)
      ∨ (65 ≤ c.toNat ∧ c.toNat ≤ 70) := by
  unfold isHexChar hexDigitVal at h
  by_cases h1 : 48 ≤ c.toNat ∧ c.toNat ≤ 57
  · exact Or.inl h1
  by_cases h2 : 97 ≤ c.toNat ∧ c.toNat ≤ 102
  · exact Or.inr (Or.inl h2)
  by_cases h3 : 65 ≤ c.toNat ∧ c.toNat ≤ 70
  · exact Or.inr (Or.inr h3)
  · rw [if_neg h1, if_neg h2, if_neg h3] at h
    simp at h

/-- Hex digit values are below 16. -/
theorem hexDigitVal_lt_16_of_hex (c : Char) (h : isHexChar c = true) :
    (hexDigitVal c.toNat).getD 0 < 16 := by
  rcases isHexChar_ranges c h with ⟨h1, h2⟩ | ⟨h1, h2⟩ | ⟨h1, h2⟩
  · rw [hexDigitVal_digit c.toNat h1 h2]; simp; omega
  · rw [hexDigitVal_lower c.toNat h1 h2]; simp; omega
  · rw [hexDigitVal_upper c.toNat h1 h2]; simp; omega

/-- `Char.ofNat` round-trips through `toNat` below the surrogate range. -/
theorem charToNat_ofNat_lt (m : Nat) (h : m < 55296) : (Char.ofNat m).toNat = m := by
  have hv : Nat.isValidChar m := Or.inl h
  unfold Char.ofNat
  rw [dif_pos hv]
  rfl

/-- Re-encoding the decoded digit of any hex character gives its
lower-case normalization. -/
theorem hexChar_hexDigitVal_of_hex (c : Char) (h : isHexChar c = true) :
    hexChar ((hexDigitVal c.toNat).getD 0) = hexLowerChar c := by
  rcases isHexChar_ranges c h with ⟨h1, h2⟩ | ⟨h1, h2⟩ | ⟨h1, h2⟩
  · rw [hexDigitVal_digit c.toNat h1 h2]
    simp only [Option.getD_some]
    unfold hexChar hexLowerChar
    rw [if_pos (by omega), if_neg (by omega)]
    have he : 48 + (c.toNat - 48) = c.toNat := by omega
    rw [he, Char.ofNat_toNat]
  · rw [hexDigitVal_lower c.toNat h1 h2]
    simp only [Option.getD_some]
    unfold hexChar hexLowerChar
    rw [if_neg (by omega), if_neg (by omega)]
    have he : 87 + (c.toNat - 87) = c.toNat := by omega
    rw [he, Char.ofNat_toNat]
  · rw [hexDigitVal_upper c.toNat h1 h2]
    simp only [Option.getD_some]
    unfold hexChar hexLowerChar
    rw [if_neg (by omega), if_pos ⟨h1, h2⟩]
    have he : 87 + (c.toNat - 55) = c.toNat + 32 := by omega
    rw [he]

/-- Lower-case normalization fixes digit and lower-case hex characters. -/
theorem hexLowerChar_of_lower (c : Char) (h : isLowerHexChar c = true) :
    hexLowerChar c = c := by
  unfold isLowerHexChar at h
  simp only [Bool.or_eq_true, Bool.and_eq_true, decide_eq_true_eq] at h
  unfold hexLowerChar
  rcases h with ⟨h1, h2⟩ | ⟨h1, h2⟩ <;> rw [if_neg (by omega)]

/-- Lower-case normalization moves every upper-case hex letter. -/
theorem hexLowerChar_ne_of_upper (c : Char) (h1 : 65 ≤ c.toNat) (h2 : c.toNat ≤ 70) :
    hexLowerChar c ≠ c := by
  unfold hexLowerChar
  rw [if_pos ⟨h1, h2⟩]
  intro heq
  have := congrArg Char.toNat heq
  rw [charToNat_ofNat_lt (c.toNat + 32) (by omega)] at this
  omega

/-- A map that reproduces a list fixes each of its members. -/
theorem map_eq_self_forall {f : Char → Char} :
    ∀ l : List Char, l.map f = l → ∀ c ∈ l, f c = c := by
  intro l
  induction l with
  | nil => intro _ c hc; simp at hc
  | cons a t ih =>
      intro h c hc
      rw [List.map_cons, List.cons.injEq] at h
      rcases List.mem_cons.mp hc with hca | hct
      · rw [hca]; exact h.1
      · exact ih h.2 c hct

/-- Decode/encode round trip on even-length hex character lists of any
letter case: the rendering is the lower-case normalization of the input
(two-step induction, bounded by a length fuel). -/
theorem bytes_roundtrip_aux (n : Nat) :
    ∀ cs : List Char, cs.length ≤ n → (∀ c ∈ cs, isHexChar c = true) →
      cs.length % 2 = 0 → bytesToHexChars (hexPairsToBytes cs) = cs.map hexLowerChar := by
  induction n with
  | zero =>
      intro cs hlen _ _
      have : cs = [] := List.eq_nil_of_length_eq_zero (by omega)
      subst this; rfl
  | succ n ih =>
      intro cs hlen hhex heven
      rcases cs with _ | ⟨c1, _ | ⟨c2, rest⟩⟩
      · rfl
      · simp at heven
      · have h1 := hhex c1 (by simp)
        have h2 := hhex c2 (by simp)
        have hrest := ih rest (by simp at hlen ⊢; omega)
          (fun c hc => hhex c (by simp [hc]))
          (by simp [List.length_cons] at heven ⊢; omega)
        rw [hexPairsToBytes, bytesToHexChars, hrest]
        unfold byteToHexChars
        have hv2 := hexDigitVal_lt_16_of_hex c2 h2
        have hdiv : ((hexDigitVal c1.toNat).getD 0 * 16 + (hexDigitVal c2.toNat).getD 0) / 16
            = (hexDigitVal c1.toNat).getD 0 := by omega
        have hmod : ((hexDigitVal c1.toNat).getD 0 * 16 + (hexDigitVal c2.toNat).getD 0) % 16
            = (hexDigitVal c2.toNat).getD 0 := by omega
        rw [hdiv, hmod, hexChar_hexDigitVal_of_hex c1 h1,
          hexChar_hexDigitVal_of_hex c2 h2]
        simp

/-- A string is its character list repacked. -/
theorem stringMk_data (s : String) : String.mk s.data = s := by
  cases s; rfl

/-- Counterexample to claim C4 as stated: the 24-hex-character string of
24 uppercase `A`s parses successfully, but the response serializer renders
the parsed identifier as the lower-case string, which differs from the
input — the round trip is not the identity on it. -/
theorem c4_counterexample :
    objectIdParse ("AAAAAAAAAAAAAAAAAAAAAAAA")
      = some (hexPairsToBytes (String.data ("AAAAAAAAAAAAAAAAAAAAAAAA")))
    ∧ serializeDoc (some [(("_id"),
        Value.oid (hexPairsToBytes (String.data ("AAAAAAAAAAAAAAAAAAAAAAAA"))))])
        = some [(("_id"), Value.str ("aaaaaaaaaaaaaaaaaaaaaaaa"))]
    ∧ ("aaaaaaaaaaaaaaaaaaaaaaaa" : String) ≠ ("AAAAAAAAAAAAAAAAAAAAAAAA") := by
  refine ⟨rfl, rfl, by decide⟩

/-- Claim C4 (amended): for every valid 24-hex-character string s — of any
letter case — identifier parsing succeeds, and rendering the parsed
identifier through the response serializer yields the lower-case hex
normalization of s; that normalization equals s precisely when s has no
uppercase hex digit, so the parse-then-serialize round trip is the
identity exactly on valid strings without uppercase hex digits. -/
theorem c4_roundtrip_amended (s : String)
    (hlen : s.length = 24)
    (hhex : ∀ c ∈ s.data, isHexChar c = true) :
    objectIdParse s = some (hexPairsToBytes s.data)
    ∧ serializeDoc (some [(("_id"), Value.oid (hexPairsToBytes s.data))])
        = some [(("_id"), Value.str (hexStringToLower s))]
    ∧ (hexStringToLower s = s ↔ ∀ c ∈ s.data, isLowerHexChar c = true) := by
  have hall : s.data.all isHexChar = true := by
    rw [List.all_eq_true]
    exact fun c hc => hhex c hc
  have hdlen : s.data.length = 24 := hlen
  refine ⟨?_, ?_, ?_, ?_⟩
  · unfold objectIdParse
    rw [if_pos ⟨hlen, hall⟩]
  · have hround := bytes_roundtrip_aux s.data.length s.data le_rfl hhex (by omega)
    show some (serializeDocSome [(("_id"), Value.oid (hexPairsToBytes s.data))]) = _
    unfold serializeDocSome
    simp [dictGet, dictSet, valueIsNull, valueStr, oidString, hround, hexStringToLower]
  · intro hid c hc
    have hdata : s.data.map hexLowerChar = s.data := by
      have hd := congrArg String.data hid
      simpa [hexStringToLower] using hd
    have hcc := map_eq_self_forall s.data hdata c hc
    rcases isHexChar_ranges c (hhex c hc) with ⟨h1, h2⟩ | ⟨h1, h2⟩ | ⟨h1, h2⟩
    · unfold isLowerHexChar
      simp only [Bool.or_eq_true, Bool.and_eq_true, decide_eq_true_eq]
      omega
    · unfold isLowerHexChar
      simp only [Bool.or_eq_true, Bool.and_eq_true, decide_eq_true_eq]
      omega
    · exact absurd hcc (hexLowerChar_ne_of_upper c h1 h2)
  · intro hlow
    unfold hexStringToLower
    have hmap : s.data.map hexLowerChar = s.data := by
      calc s.data.map hexLowerChar
          = s.data.map id :=
            List.map_congr_left (fun c hc => hexLowerChar_of_lower c (hlow c hc))
        _ = s.data := List.map_id s.data
    rw [hmap, stringMk_data]

/-- Witness for the amended C4 at a concrete mixed-case 24-hex string:
parsing succeeds and the serializer yields the lower-case normalization. -/
theorem c4_roundtrip_amended_witness :
    objectIdParse ("0123456789ABCDEFabcdef01")
      = some (hexPairsToBytes (String.data ("0123456789ABCDEFabcdef01")))
    ∧ serializeDoc (some [(("_id"),
        Value.oid (hexPairsToBytes (String.data ("0123456789ABCDEFabcdef01"))))])
        = some [(("_id"), Value.str (hexStringToLower ("0123456789ABCDEFabcdef01")))]
    ∧ hexStringToLower ("0123456789ABCDEFabcdef01") = ("0123456789abcdefabcdef01") :=
  ⟨(c4_roundtrip_amended ("0123456789ABCDEFabcdef01") (by decide) (by decide)).1,
   (c4_roundtrip_amended ("0123456789ABCDEFabcdef01") (by decide) (by decide)).2.1,
   by decide⟩

/-- Once the inner manager exists, `get_collection` returns a handle on
its client and leaves the state untouched. -/
theorem lazyGetCollection_of_inst_some (mongoUrl : Option String) (db coll : String)
    (st : LazyState) (m : MongoManager) (h : st.inst = some m) :
    lazyGetCollection mongoUrl db coll st = Except.ok (⟨m.clientId, db, coll⟩, st) := by
  simp [lazyGetCollection, getInstance, h]

/-- Once the inner manager exists, any sequence of `get_collection` calls
leaves the state untouched. -/
theorem runLazyGets_of_inst_some (mongoUrl : Option String)
    (reqs : List (String × String)) (st : LazyState) (m : MongoManager)
    (h : st.inst = some m) : runLazyGets mongoUrl reqs st = st := by
  induction reqs with
  | nil => rfl
  | cons r rest ih =>
      obtain ⟨db, coll⟩ := r
      simp [runLazyGets, lazyGetCollection_of_inst_some mongoUrl db coll st m h, ih]

/-- With no inner manager and a falsy connection string, `get_collection`
raises the configuration error. -/
theorem lazyGetCollection_bad_env (mongoUrl : Option String) (db coll : String)
    (st : LazyState) (h : st.inst = none)
    (hbad : mongoUrl = none ∨ mongoUrl = some ("")) :
    lazyGetCollection mongoUrl db coll st = Except.error mongoUrlError := by
  rcases hbad with hbad | hbad <;> subst hbad <;>
    simp [lazyGetCollection, getInstance, h, mkMongoManager]

/-- Claim C7: the connection manager initializes the shared client at most
once per process.  From an uninitialized state with a configured
connection string, `get_collection` succeeds (it never fails because no
prior initialization happened) and creates the client; after any
successful call, every further call returns a handle on the same client
instance and leaves the state unchanged; the connection string is read at
first access — its absence is an error raised by the first access, while
building the manager at process start (`initLazyState`) involves no
environment read at all; over any request sequence from process start at
most one client is ever created. -/
theorem c7_connection_manager_init_once :
    (∀ (db coll u : String) (st : LazyState), st.inst = none → u ≠ ("") →
      lazyGetCollection (some u) db coll st
        = Except.ok (⟨st.nextClientId, db, coll⟩,
            ⟨some ⟨u, st.nextClientId⟩, st.nextClientId + 1, st.active ++ [st.nextClientId]⟩))
    ∧ (∀ (mongoUrl : Option String) (db coll db2 coll2 : String) (st st2 : LazyState)
        (h : CollectionHandle),
        lazyGetCollection mongoUrl db coll st = Except.ok (h, st2) →
        lazyGetCollection mongoUrl db2 coll2 st2 = Except.ok (⟨h.clientId, db2, coll2⟩, st2))
    ∧ (∀ db coll : String,
        lazyGetCollection none db coll initLazyState = Except.error mongoUrlError)
    ∧ (∀ (mongoUrl : Option String) (reqs : List (String × String)),
        (runLazyGets mongoUrl reqs initLazyState).nextClientId ≤ 1) := by
  refine ⟨?_, ?_, ?_, ?_⟩
  · intro db coll u st hinst hu
    simp [lazyGetCollection, getInstance, hinst, mkMongoManager, hu]
  · intro mongoUrl db coll db2 coll2 st st2 h hok
    cases hst : st.inst with
    | some m =>
        rw [lazyGetCollection_of_inst_some mongoUrl db coll st m hst] at hok
        simp only [Except.ok.injEq, Prod.mk.injEq] at hok
        obtain ⟨hh, hst2⟩ := hok
        subst hst2
        rw [lazyGetCollection_of_inst_some mongoUrl db2 coll2 st m hst, ← hh]
    | none =>
        match mongoUrl with
        | none =>
            rw [lazyGetCollection_bad_env none db coll st hst (Or.inl rfl)] at hok
            exact absurd hok (by simp)
        | some u =>
            by_cases hu : u = ""
            · subst hu
              rw [lazyGetCollection_bad_env (some ("")) db coll st hst (Or.inr rfl)] at hok
              exact absurd hok (by simp)
            · simp only [lazyGetCollection, getInstance, hst, mkMongoManager, hu,
                if_false, if_neg hu, Except.ok.injEq, Prod.mk.injEq] at hok
              obtain ⟨hh, hst2⟩ := hok
              rw [lazyGetCollection_of_inst_some (some u) db2 coll2 st2
                ⟨u, st.nextClientId⟩ (by rw [← hst2])]
              rw [← hh]
  · intro db coll
    rfl
  · intro mongoUrl reqs
    match mongoUrl with
    | none =>
        have bad : ∀ (rs : List (String × String)) (st : LazyState), st.inst = none →
            runLazyGets none rs st = st := by
          intro rs
          induction rs with
          | nil => intro st _; rfl
          | cons r rest ih =>
              intro st hst
              obtain ⟨db, coll⟩ := r
              simp [runLazyGets,
                lazyGetCollection_bad_env none db coll st hst (Or.inl rfl), ih st hst]
        rw [bad reqs initLazyState rfl]
        decide
    | some u =>
        by_cases hu : u = ""
        · subst hu
          have bad : ∀ (rs : List (String × String)) (st : LazyState), st.inst = none →
              runLazyGets (some ("")) rs st = st := by
            intro rs
            induction rs with
            | nil => intro st _; rfl
            | cons r rest ih =>
                intro st hst
                obtain ⟨db, coll⟩ := r
                simp [runLazyGets,
                  lazyGetCollection_bad_env (some ("")) db coll st hst (Or.inr rfl),
                  ih st hst]
          rw [bad reqs initLazyState rfl]
          decide
        · rcases reqs with _ | ⟨⟨db, coll⟩, rest⟩
          · show initLazyState.nextClientId ≤ 1
            decide
          · have hfirst : lazyGetCollection (some u) db coll initLazyState
                = Except.ok (⟨0, db, coll⟩, ⟨some ⟨u, 0⟩, 1, [0]⟩) := by
              simp [lazyGetCollection, getInstance, initLazyState, mkMongoManager, hu]
            rw [runLazyGets, hfirst]
            show (runLazyGets (some u) rest ⟨some ⟨u, 0⟩, 1, [0]⟩).nextClientId ≤ 1
            rw [runLazyGets_of_inst_some (some u) rest ⟨some ⟨u, 0⟩, 1, [0]⟩ ⟨u, 0⟩ rfl]

/-- Witness for C7: first access from process start with a configured
connection string creates client 0 and stores it. -/
theorem c7_connection_manager_init_once_witness :
    lazyGetCollection (some ("mongodb://local")) ("db") ("coll") initLazyState
      = Except.ok (⟨0, "db", "coll"⟩, ⟨some ⟨"mongodb://local", 0⟩, 1, [0]⟩) :=
  c7_connection_manager_init_once.1 ("db") ("coll") ("mongodb://local")
    initLazyState rfl (by decide)

/-- Counterexample to claim C8 as stated: with no client ever created and
no configured connection string, `close()` is not safe — the throwaway
`MongoConnectionManager()` it constructs raises the configuration error. -/
theorem c8_counterexample :
    lazyCloseConnection none initLazyState = Except.error mongoUrlError := rfl

/-- Claim C8 (amended): `close()` succeeds whenever a client exists (it
closes it, in any environment), and in the never-created case it succeeds
provided the connection string is configured: it constructs a disposable
client and immediately closes it, leaving the active-client set and the
uninitialized instance exactly as before; in the never-created case with
no configured connection string it raises the configuration error instead
of being safe. -/
theorem c8_close_safe_amended :
    (∀ (mongoUrl : Option String) (st : LazyState) (m : MongoManager),
      st.inst = some m →
      lazyCloseConnection mongoUrl st = Except.ok (managerCloseClient m st))
    ∧ (∀ (u : String) (st : LazyState), st.inst = none → u ≠ ("") →
        st.nextClientId ∉ st.active →
        lazyCloseConnection (some u) st
          = Except.ok ⟨none, st.nextClientId + 1, st.active⟩)
    ∧ (∀ st : LazyState, st.inst = none →
        lazyCloseConnection none st = Except.error mongoUrlError) := by
  refine ⟨?_, ?_, ?_⟩
  · intro mongoUrl st m h
    simp [lazyCloseConnection, h]
  · intro u st hinst hu hact
    simp only [lazyCloseConnection, hinst, mkMongoManager, if_neg hu,
      managerCloseClient]
    have herase : (st.active ++ [st.nextClientId]).erase st.nextClientId = st.active := by
      rw [List.erase_append_right _ hact]
      simp
    simp [herase, hinst]
  · intro st hinst
    simp [lazyCloseConnection, hinst, mkMongoManager]

/-- Witness for the amended C8: never-created state, configured
connection string — the disposable client (identity 0) is constructed and
closed, no active client remains. -/
theorem c8_close_safe_amended_witness :
    lazyCloseConnection (some ("mongodb://local")) initLazyState
      = Except.ok ⟨none, 1, []⟩ :=
  c8_close_safe_amended.2.1 ("mongodb://local") initLazyState rfl (by decide) (by decide)
